import Mathlib

/-!
Verification of the secure completion gateway of the Nodea canvas
application (Convex backend).  The TypeScript sources under `convex/` are
shallowly embedded: strings are `List Char`, JS numbers are `ℚ` (or `Nat`/`ℤ`
where the source only ever holds integers), fallible functions return
`Except String _`, and the stateful rate limiter / anomaly detector are
explicit state-passing functions.  Regular-expression tests from
`validation.ts` are embedded as executable character-list matchers with the
exact ECMAScript semantics of each literal pattern (case-insensitive flags,
`.` not matching line terminators, `[\s\S]` matching everything); regex state
(`lastIndex`) is modelled at its initial value 0, i.e. a single invocation.
-/

namespace Nodea

/-! ## Character class helpers (ECMAScript `\s`, `\w`, line terminators) -/

/-- ECMAScript whitespace class `\s` (the members expressible here:
space, tab, LF, CR, VT, FF, NBSP, BOM, LS, PS). -/
def isJsWS (c : Char) : Bool :=
  c = ' ' || c = '\t' || c = '\n' || c = '\r' || c = '\x0b' || c = '\x0c' ||
  c.toNat = 0xa0 || c.toNat = 0xfeff || c.toNat = 0x2028 || c.toNat = 0x2029

/-- ECMAScript line terminators, which `.` does not match. -/
def isLineTerm (c : Char) : Bool :=
  c = '\n' || c = '\r' || c.toNat = 0x2028 || c.toNat = 0x2029

/-- ECMAScript word class `\w` = `[A-Za-z0-9_]`. -/
def isWordChar (c : Char) : Bool :=
  ('a' ≤ c && c ≤ 'z') || ('A' ≤ c && c ≤ 'Z') || ('0' ≤ c && c ≤ '9') || c = '_'

/-- The single-quote character, by code point. -/
def squote : Char := Char.ofNat 39

/-- `pat` (given lowercase) is a prefix of `s` compared case-insensitively. -/
def startsWithLower : List Char → List Char → Bool
  | [], _ => true
  | _ :: _, [] => false
  | p :: ps, c :: cs => (Char.toLower c = p) && startsWithLower ps cs

/-- `pat` is an exact (case-sensitive) prefix of `s`. -/
def startsWithChars : List Char → List Char → Bool
  | [], _ => true
  | _ :: _, [] => false
  | p :: ps, c :: cs => (c = p) && startsWithChars ps cs

/-- `pat` occurs (case-sensitively) somewhere in `s`
(JS `String.prototype.includes`). -/
def containsChars (pat : List Char) : List Char → Bool
  | [] => startsWithChars pat []
  | c :: cs => startsWithChars pat (c :: cs) || containsChars pat cs

/-- `pat` (given lowercase) occurs somewhere in `s`, case-insensitively. -/
def containsCharsCI (pat : List Char) : List Char → Bool
  | [] => startsWithLower pat []
  | c :: cs => startsWithLower pat (c :: cs) || containsCharsCI pat cs

/-- Index of the first case-insensitive occurrence of `pat` in `s`. -/
def findCIIdx (pat : List Char) : List Char → Option Nat
  | [] => if startsWithLower pat [] then some 0 else none
  | c :: cs =>
    if startsWithLower pat (c :: cs) then some 0
    else (findCIIdx pat cs).map (· + 1)

/-- Length of the initial run of characters satisfying `p`. -/
def countWhile (p : Char → Bool) (s : List Char) : Nat :=
  (s.takeWhile p).length

/-- JS `String.prototype.trim`: strip whitespace from both ends. -/
def jsTrim (s : List Char) : List Char :=
  ((s.dropWhile isJsWS).reverse.dropWhile isJsWS).reverse

/-! ## Embedded regex matchers for `validation.ts`

`DANGEROUS_PATTERNS` (validation.ts lines 24–45) are tested with
`pattern.test(content)`; the tag-pair patterns are
`<tag[^>]*>.*?<\/tag>` with flags `gi` — the body `.` does not cross a
line terminator — while the URI / event-handler signatures are plain
case-insensitive substrings. -/

/-- Matches `<tag[^>]*>` (case-insensitively) at the start of `s`, returning
the matched length.  `[^>]*>` deterministically consumes up to and including
the first `>`. -/
def openTagLen (tag : List Char) (s : List Char) : Option Nat :=
  let opener := '<' :: tag
  if startsWithLower opener s then
    match (List.drop opener.length s).findIdx? (fun c => c = '>') with
    | some i => some (opener.length + i + 1)
    | none => none
  else none

/-- `close` occurs further right without `.`-forbidden line terminators in
between (the `.*?</tag>` tail of a test pattern). -/
def closeNoNL (close : List Char) : List Char → Bool
  | [] => startsWithLower close []
  | c :: cs => startsWithLower close (c :: cs) || (!isLineTerm c && closeNoNL close cs)

/-- `pattern.test` semantics of `<tag[^>]*>.*?<\/tag>` with flags `i`
(and `g` at `lastIndex = 0`): some suffix carries an open tag whose body
reaches the close tag without crossing a line terminator. -/
def matchesTagPairTest (tag : List Char) : List Char → Bool
  | [] => false
  | c :: cs =>
    (match openTagLen tag (c :: cs) with
     | some olen => closeNoNL ('<' :: '/' :: (tag ++ ['>'])) (List.drop olen (c :: cs))
     | none => false) || matchesTagPairTest tag cs

/-- The nine tag names with `<tag[^>]*>.*?<\/tag>` dangerous patterns. -/
def dangerousTagNames : List String :=
  ["script", "iframe", "object", "embed", "form", "input", "textarea", "select", "button"]

/-- The eleven plain substring dangerous patterns. -/
def dangerousSubstrings : List String :=
  ["javascript:", "data:text/html", "vbscript:", "onload=", "onerror=", "onclick=",
   "onmouseover=", "onfocus=", "onblur=", "onchange=", "onsubmit="]

/-- The `for (const pattern of DANGEROUS_PATTERNS) if (pattern.test(content))`
loop of `validateAndSanitizeText`: does any dangerous pattern match? -/
def containsDangerousPattern (content : List Char) : Bool :=
  dangerousTagNames.any (fun t => matchesTagPairTest t.toList content) ||
  dangerousSubstrings.any (fun p => containsCharsCI p.toList content)

/-! ## Sanitization chain of `validateAndSanitizeText` (lines 67–84) -/

/-- Leftmost-scan global replace-with-empty: at each position, if `matchLen`
matches, drop that many characters and continue after the match, else keep
the character.  Fuel (`s.length + 1`) covers every reachable step since the
embedded patterns never match the empty string. -/
def replaceAllAux (matchLen : List Char → Option Nat) : Nat → List Char → List Char
  | 0, s => s
  | _ + 1, [] => []
  | fuel + 1, c :: cs =>
    match matchLen (c :: cs) with
    | some n => replaceAllAux matchLen fuel (List.drop n (c :: cs))
    | none => c :: replaceAllAux matchLen fuel cs

/-- JS `str.replace(pattern, '')` with a global pattern. -/
def replaceAll (matchLen : List Char → Option Nat) (s : List Char) : List Char :=
  replaceAllAux matchLen (s.length + 1) s

/-- Match length at the current position of `<tag[^>]*>[\s\S]*?<\/tag>`
(the sanitizer's pair patterns: `[\s\S]` crosses newlines, lazy body ends at
the first close tag). -/
def tagPairLen (tag : List Char) (s : List Char) : Option Nat :=
  match openTagLen tag s with
  | some olen =>
    match findCIIdx ('<' :: '/' :: (tag ++ ['>'])) (List.drop olen s) with
    | some i => some (olen + i + (tag.length + 3))
    | none => none
  | none => none

/-- Match length at the current position of
`\s*on\w+\s*=\s*["'][^"']*["']` (flags `gi`), the dangerous-attribute
replace.  Each quantifier boundary is deterministic for this pattern. -/
def onAttrLen (s : List Char) : Option Nat :=
  let ws := countWhile isJsWS s
  let rest := List.drop ws s
  if startsWithLower ['o', 'n'] rest then
    let rest2 := List.drop 2 rest
    let w := countWhile isWordChar rest2
    if w = 0 then none
    else
      let rest3 := List.drop w rest2
      let ws2 := countWhile isJsWS rest3
      match List.drop ws2 rest3 with
      | '=' :: rest5 =>
        let ws3 := countWhile isJsWS rest5
        match List.drop ws3 rest5 with
        | q :: rest7 =>
          if q = '"' || q = squote then
            let body := countWhile (fun c => !(c = '"' || c = squote)) rest7
            match List.drop body rest7 with
            | _ :: _ => some (ws + 2 + w + ws2 + 1 + ws3 + 1 + body + 1)
            | [] => none
          else none
        | [] => none
      | _ => none
  else none

/-- Match length at the current position of `\s*word\s*:` (flags `gi`), the
`javascript:` / `vbscript:` replaces. -/
def wordColonLen (word : List Char) (s : List Char) : Option Nat :=
  let ws := countWhile isJsWS s
  let rest := List.drop ws s
  if startsWithLower word rest then
    let rest2 := List.drop word.length rest
    let ws2 := countWhile isJsWS rest2
    match List.drop ws2 rest2 with
    | ':' :: _ => some (ws + word.length + ws2 + 1)
    | _ => none
  else none

/-- The replace chain of `validateAndSanitizeText` lines 68–82, in source
order, without the final `trim`. -/
def sanitizeText (content : List Char) : List Char :=
  let s1 := replaceAll (tagPairLen "script".toList) content
  let s2 := replaceAll (tagPairLen "iframe".toList) s1
  let s3 := replaceAll (tagPairLen "object".toList) s2
  let s4 := replaceAll (openTagLen "embed".toList) s3
  let s5 := replaceAll (tagPairLen "form".toList) s4
  let s6 := replaceAll onAttrLen s5
  let s7 := replaceAll (wordColonLen "javascript".toList) s6
  replaceAll (wordColonLen "vbscript".toList) s7

/-! ## `validation.ts` validators -/

/-- `MAX_LENGTHS.NODE_CONTENT` (validation.ts line 9). -/
def MAX_LENGTHS_NODE_CONTENT : Nat := 50000

/-- `validateAndSanitizeText(content, maxLength)` (validation.ts lines
50–85): reject over-length content, reject content matching any dangerous
pattern, otherwise return the sanitized and trimmed text. -/
def validateAndSanitizeText (content : List Char) (maxLength : Nat) :
    Except String (List Char) :=
  if content.length > maxLength then
    .error ("Content exceeds maximum length of " ++ toString maxLength ++ " characters")
  else if containsDangerousPattern content then
    .error "Content contains potentially dangerous patterns"
  else
    .ok (jsTrim (sanitizeText content))

/-- `validateNodeContent` (validation.ts lines 122–128). -/
def validateNodeContent (content : List Char) : Except String (List Char) :=
  validateAndSanitizeText content MAX_LENGTHS_NODE_CONTENT

/-- `validateProviderName` (validation.ts lines 216–231):
`/^[a-z0-9]+$/` then a 50-character cap. -/
def validateProviderName (provider : String) : Except String String :=
  if provider.toList ≠ [] ∧ provider.toList.all (fun c =>
      ('a' ≤ c && c ≤ 'z') || ('0' ≤ c && c ≤ '9')) then
    if provider.length > 50 then .error "Provider name too long"
    else .ok provider
  else .error "Provider name contains invalid characters"

/-- `validateModelName` (validation.ts lines 196–211):
`/^[a-zA-Z0-9._-]+$/` then a 100-character cap. -/
def validateModelName (model : String) : Except String String :=
  if model.toList ≠ [] ∧ model.toList.all (fun c =>
      ('a' ≤ c && c ≤ 'z') || ('A' ≤ c && c ≤ 'Z') || ('0' ≤ c && c ≤ '9') ||
      c = '.' || c = '_' || c = '-') then
    if model.length > 100 then .error "Model name too long"
    else .ok model
  else .error "Model name contains invalid characters"

/-- `validateTemperature` (validation.ts lines 236–250): default 0.7, range
[0, 2], rounded to two decimals via `Math.round(t * 100) / 100`. -/
def validateTemperature (temperature : Option ℚ) : Except String ℚ :=
  match temperature with
  | none => .ok (7 / 10)
  | some t =>
    if t < 0 ∨ t > 2 then .error "Temperature must be between 0 and 2"
    else .ok ((round (t * 100) : ℤ) / 100)

/-- `validateMaxTokens` (validation.ts lines 255–269): default 4000, values
outside [1, 100000] are rejected with an error, in-range values are rounded
(`Math.round`, i.e. `⌊x + 1/2⌋`). -/
def validateMaxTokens (maxTokens : Option ℚ) : Except String ℤ :=
  match maxTokens with
  | none => .ok 4000
  | some q =>
    if q < 1 ∨ q > 100000 then .error "Max tokens must be between 1 and 100,000"
    else .ok (round q)

/-! ## KeyVault and completion orchestrators (`keys.ts`, `llm.ts`, `llmSecure.ts`)

The Convex context (auth, database reads, environment) is supplied as
explicit parameters; the placeholder `decryptApiKey` (keys.ts lines
101–105, base64) is passed in as a function argument, mirroring the call. -/

/-- An `apiKeys` row (schema + keys.ts). -/
structure ApiKeyDoc where
  ownerUserId : String
  provider : String
  nickname : String
  last4 : String
  encryptedKey : String
  status : String
deriving DecidableEq

/-- A `boards` row, restricted to the fields the gateway reads. -/
structure BoardDoc where
  ownerUserId : String
  isPublic : Bool
deriving DecidableEq

/-- JS `a || b` on an optional string: an absent or empty string is falsy. -/
def jsStrOr (x : Option String) (d : String) : String :=
  match x with
  | none => d
  | some s => if s.isEmpty then d else s

/-- JS `a || b` on two optional strings (the `process.env` fallback chain). -/
def jsOrOpt (a b : Option String) : Option String :=
  match a with
  | some s => if s.isEmpty then b else some s
  | none => b

/-- JS `a || b` on an optional number: absent or zero is falsy. -/
def jsNumOr (x : Option ℚ) (d : ℚ) : ℚ :=
  match x with
  | none => d
  | some q => if q = 0 then d else q

/-- The token ceiling of `llm.ts` lines 66 and 181:
`Math.min(args.maxTokens || 400, 600)` — "Hard ceiling: never exceed 600
tokens". -/
def llmMaxTokens (maxTokens : Option ℚ) : ℚ :=
  min (jsNumOr maxTokens 400) 600

/-- API-key resolution of `llm.ts` `complete`/`completeStream` (lines 68–86
and 183–201): the board default key (if its provider matches) is decrypted;
failing that (`if (!apiKey)`, so an empty decryption also falls through),
only the `openai` provider may fall back to
`process.env.CONVEX_OPENAI_API_KEY || process.env.OPENAI_API_KEY`; anything
still falsy is the "No {provider} API key found" error.  Note the comment in
the source promises "board default -> user key -> system key" but the code
never consults the user's own keys. -/
def findApiKeyLlm (decrypt : String → String) (getApiKey : String → Option ApiKeyDoc)
    (boardDefaultApiKeyId : Option String)
    (envConvexOpenaiKey envOpenaiKey : Option String)
    (provider : String) : Except String String :=
  let fromBoard : Option String :=
    match boardDefaultApiKeyId with
    | some keyId =>
      match getApiKey keyId with
      | some key => if key.provider = provider then some (decrypt key.encryptedKey) else none
      | none => none
    | none => none
  let afterBoard : Option String :=
    match fromBoard with
    | some s => if s.isEmpty then none else some s
    | none => none
  let afterEnv : Option String :=
    match afterBoard with
    | some s => some s
    | none =>
      if provider = "openai" then jsOrOpt envConvexOpenaiKey envOpenaiKey else none
  match afterEnv with
  | some s =>
    if s.isEmpty then .error ("No " ++ provider ++ " API key found. Please add one in settings.")
    else .ok s
  | none => .error ("No " ++ provider ++ " API key found. Please add one in settings.")

/-- API-key resolution of `llmSecure.ts` `complete`/`completeStream` (lines
105–118 and 233–246): `listApiKeys` returns the caller's keys with status
`active`; `.find(key => key.provider === provider)` picks the first for the
requested provider; the key is fetched and decrypted, an empty decryption
failing.  No board default and no environment fallback are consulted. -/
def findApiKeyLlmSecure (decrypt : String → String) (userKeys : List ApiKeyDoc)
    (provider : String) : Except String String :=
  let activeKeys := userKeys.filter (fun k => k.status = "active")
  match activeKeys.find? (fun k => k.provider = provider) with
  | none => .error ("No API key found for provider: " ++ provider)
  | some key =>
    let decryptedKey := decrypt key.encryptedKey
    if decryptedKey.isEmpty then .error "Failed to decrypt API key"
    else .ok decryptedKey

/-- A `usageEvents` insert (`internal.usage.recordUsage` performs exactly one
`ctx.db.insert("usageEvents", ...)` per call). -/
structure UsageEventRec where
  userId : String
  boardId : String
  provider : String
  model : String
  inputTokens : Nat
  outputTokens : Nat
  costEstimate : ℚ
  status : String
deriving DecidableEq

/-- `calculateCost` (llm.ts lines 479–487):
$0.00003/input token and $0.00006/output token for openai `gpt-4*` models,
0 otherwise. -/
def calculateCost (provider model : String) (inputTokens outputTokens : Nat) : ℚ :=
  if provider = "openai" ∧ containsChars "gpt-4".toList model.toList then
    inputTokens * (3 / 100000) + outputTokens * (6 / 100000)
  else 0

/-- Outcome of the upstream provider call, supplied as an oracle. -/
inductive ProviderOutcome where
  | success (text : String) (inputTokens outputTokens : Nat)
  | failure (message : String)
deriving DecidableEq

/-- Outcome of the upstream streaming provider call. -/
inductive StreamOutcome where
  | success (chunks : List String) (inputTokens outputTokens : Nat)
  | failure (partialChunks : List String) (message : String)
deriving DecidableEq

/-- Effect trace of `llm.ts` `complete` (lines 56–150): resolve the API key
(throwing before the `try` on failure, hence no usage record); inside the
`try`, a non-openai provider or a failed provider call reaches the `catch`,
which records one zero-token `error` usage event and rethrows; a successful
call records one `success` usage event with the provider-reported tokens and
then — still inside the `try`, unguarded (lines 118–126) — runs
`updateResponseNode` when `responseNodeId` is present: if that mutation
throws, the `catch` records a **second**, zero-token `error` usage event and
rethrows.  `recordUsage` itself (a plain insert) is modelled as succeeding;
the response-node update's outcome is the `updateResponseNodeOutcome`
parameter.  Returns the inserted usage events and the result. -/
def llmComplete (decrypt : String → String) (getApiKey : String → Option ApiKeyDoc)
    (boardDefaultApiKeyId : Option String)
    (envConvexOpenaiKey envOpenaiKey : Option String)
    (userId boardId : String)
    (providerArg modelArg : Option String)
    (responseNodeId : Option String)
    (updateResponseNodeOutcome : Except String Unit)
    (outcome : ProviderOutcome) :
    List UsageEventRec × Except String String :=
  let provider := jsStrOr providerArg "openai"
  let model := jsStrOr modelArg "gpt-5-mini"
  match findApiKeyLlm decrypt getApiKey boardDefaultApiKeyId envConvexOpenaiKey envOpenaiKey provider with
  | .error e => ([], .error e)
  | .ok _ =>
    if provider = "openai" then
      match outcome with
      | .success text inT outT =>
        match responseNodeId with
        | Option.none =>
          ([⟨userId, boardId, provider, model, inT, outT,
             calculateCost provider model inT outT, "success"⟩], .ok text)
        | some _ =>
          match updateResponseNodeOutcome with
          | .ok _ =>
            ([⟨userId, boardId, provider, model, inT, outT,
               calculateCost provider model inT outT, "success"⟩], .ok text)
          | .error msg =>
            ([⟨userId, boardId, provider, model, inT, outT,
               calculateCost provider model inT outT, "success"⟩,
              ⟨userId, boardId, provider, model, 0, 0, 0, "error"⟩], .error msg)
      | .failure msg =>
        ([⟨userId, boardId, provider, model, 0, 0, 0, "error"⟩], .error msg)
    else
      ([⟨userId, boardId, provider, model, 0, 0, 0, "error"⟩],
       .error ("Provider " ++ provider ++ " not yet supported"))

/-- Effect trace of `llm.ts` `completeStream` (lines 171–292): identical key
resolution and usage recording; the accumulated chunk texts form the final
response.  Unlike `complete`, every `updateResponseNode` call here sits in
its own `try`/`catch` (lines 222–234 during streaming, 254–267 for the
final write), so a failing node update (`updateResponseNodeOutcome`) is
swallowed and affects neither the usage events nor the result. -/
def llmCompleteStream (decrypt : String → String) (getApiKey : String → Option ApiKeyDoc)
    (boardDefaultApiKeyId : Option String)
    (envConvexOpenaiKey envOpenaiKey : Option String)
    (userId boardId : String)
    (providerArg modelArg : Option String)
    (_responseNodeId : Option String)
    (_updateResponseNodeOutcome : Except String Unit)
    (outcome : StreamOutcome) :
    List UsageEventRec × Except String String :=
  let provider := jsStrOr providerArg "openai"
  let model := jsStrOr modelArg "gpt-5-mini"
  match findApiKeyLlm decrypt getApiKey boardDefaultApiKeyId envConvexOpenaiKey envOpenaiKey provider with
  | .error e => ([], .error e)
  | .ok _ =>
    if provider = "openai" then
      match outcome with
      | .success chunks inT outT =>
        ([⟨userId, boardId, provider, model, inT, outT,
           calculateCost provider model inT outT, "success"⟩], .ok (String.join chunks))
      | .failure _ msg =>
        ([⟨userId, boardId, provider, model, 0, 0, 0, "error"⟩], .error msg)
    else
      ([⟨userId, boardId, provider, model, 0, 0, 0, "error"⟩],
       .error ("Provider " ++ provider ++ " not yet supported"))

/-- Message roles of the completion API. -/
inductive Role where
  | system | user | assistant
deriving DecidableEq

/-- A chat message. -/
structure ChatMessage where
  role : Role
  content : List Char
deriving DecidableEq

/-- Effect trace of `llmSecure.ts` `complete` (lines 47–178): require auth,
rate-limit, require board ownership, validate provider / model /
temperature / maxTokens and every message's content, resolve the caller's
own API key, then call the provider.  The handler contains **no**
`recordUsage` call on any path, so the returned usage-event list is empty
in every branch; observability tracking and logging perform no store
writes. -/
def llmSecureComplete (decrypt : String → String)
    (authUserId : Option String)
    (rateLimitOk : Bool)
    (board : Option BoardDoc)
    (userKeys : List ApiKeyDoc)
    (messages : List ChatMessage)
    (providerArg modelArg : Option String)
    (temperatureArg maxTokensArg : Option ℚ)
    (outcome : ProviderOutcome) :
    List UsageEventRec × Except String (String × Nat × Nat) :=
  match authUserId with
  | none => ([], .error "Authentication required. Please sign in to access this resource.")
  | some userId =>
    if rateLimitOk = false then ([], .error "Rate limit exceeded. Please try again later.")
    else
      match board with
      | none => ([], .error "Access denied. You can only access your own boards.")
      | some b =>
        if b.ownerUserId ≠ userId then
          ([], .error "Access denied. You can only access your own boards.")
        else
          match (match providerArg with
                 | some p => validateProviderName p
                 | none => .ok "openai") with
          | .error e => ([], .error e)
          | .ok provider =>
            match (match modelArg with
                   | some m => validateModelName m
                   | none => .ok "gpt-4o") with
            | .error e => ([], .error e)
            | .ok _model =>
              match validateTemperature temperatureArg with
              | .error e => ([], .error e)
              | .ok _temperature =>
                match validateMaxTokens maxTokensArg with
                | .error e => ([], .error e)
                | .ok _maxTokens =>
                  match messages.mapM (fun m =>
                      (validateNodeContent m.content).map (fun c => ChatMessage.mk m.role c)) with
                  | .error e => ([], .error e)
                  | .ok _validatedMessages =>
                    match findApiKeyLlmSecure decrypt userKeys provider with
                    | .error e => ([], .error e)
                    | .ok _key =>
                      match outcome with
                      | .success text inT outT => ([], .ok (text, inT, outT))
                      | .failure msg => ([], .error msg)

/-! ## AccessControl (`acl.ts` `checkBoardAccess`) -/

/-- The access levels of the ACL. -/
inductive AccessLevel where
  | none | read | write | admin
deriving DecidableEq

/-- A sharing-token capability (schema: `view` or `comment`). -/
inductive ShareAccess where
  | view | comment
deriving DecidableEq

/-- A `sharingTokens` row. -/
structure SharingToken where
  boardId : String
  token : String
  access : ShareAccess
  expiresAt : Int
deriving DecidableEq

/-- `checkBoardAccess(ctx, boardId, userId, requiredLevel)` (acl.ts):
a missing board is `false`; the owner has all access; a public board grants
exactly the `read` level; otherwise the first non-expired sharing token for
the board (Convex `withIndex("by_board")`, `filter(gte que expiresAt, now)`,
`.first()`) maps `view` to read and `comment` to read or write.  `boards`
models `ctx.db.get`; `tokens` models the `sharingTokens` table in order. -/
def checkBoardAccess (boards : String → Option BoardDoc) (tokens : List SharingToken)
    (boardId userId : String) (requiredLevel : AccessLevel) (now : Int) : Bool :=
  match boards boardId with
  | Option.none => false
  | some board =>
    if board.ownerUserId = userId then true
    else if board.isPublic ∧ requiredLevel = AccessLevel.read then true
    else
      match (tokens.filter (fun t =>
          decide (t.boardId = boardId) && decide (t.expiresAt ≥ now))).head? with
      | some tok =>
        match tok.access with
        | ShareAccess.view => decide (requiredLevel = AccessLevel.read)
        | ShareAccess.comment =>
          decide (requiredLevel = AccessLevel.read) || decide (requiredLevel = AccessLevel.write)
      | Option.none => false

/-! ## RateLimiter (`security.ts` `checkRateLimit`, lines 32–48) -/

/-- A `rateLimitMap` entry: `{ count, resetTime }`. -/
structure RLEntry where
  count : Nat
  resetTime : Nat
deriving DecidableEq

/-- One `checkRateLimit(identifier, maxRequests, windowMs)` call, with the
map entry for the key passed in and the updated entry returned: a missing
entry or `now > resetTime` starts a window at count 1 and allows; at or
above `maxRequests` the call is denied without touching the counter;
otherwise the counter increments and the call is allowed. -/
def checkRateLimit (current : Option RLEntry) (now maxRequests windowMs : Nat) :
    Bool × RLEntry :=
  match current with
  | Option.none => (true, ⟨1, now + windowMs⟩)
  | some c =>
    if now > c.resetTime then (true, ⟨1, now + windowMs⟩)
    else if c.count ≥ maxRequests then (false, c)
    else (true, ⟨c.count + 1, c.resetTime⟩)

/-- Run `checkRateLimit` for one key over a sequence of call times,
threading the map entry; returns the per-call verdicts. -/
def rlRun (current : Option RLEntry) (maxRequests windowMs : Nat) :
    List Nat → List Bool
  | [] => []
  | t :: ts =>
    let r := checkRateLimit current t maxRequests windowMs
    r.1 :: rlRun (some r.2) maxRequests windowMs ts

/-! ## AnomalyDetector (`anomalyDetection.ts`) -/

/-- The tracked activity types.  (`export` is a Lean keyword; the
constructor for the source's `'export'` is `exportActivity`.) -/
inductive ActivityType where
  | request | exportActivity | auth_failure | session_start | session_end
deriving DecidableEq

/-- The `THRESHOLDS` record (anomalyDetection.ts lines 12–19).
`concurrentSessions` is an `Int` to compare against the stored counter. -/
structure Thresholds where
  requestsPerMinute : Nat
  requestsPerHour : Nat
  exportsPerHour : Nat
  costPerDay : ℚ
  failedAuthAttempts : Nat
  concurrentSessions : Int
deriving DecidableEq

/-- The default thresholds: 20/min, 100/h, 10 exports/h, $50/day, 5 failed
auth, 3 concurrent sessions. -/
def defaultThresholds : Thresholds := ⟨20, 100, 10, 50, 5, 3⟩

/-- An `anomalyMetrics` entry.  `concurrentSessions` is an `Int`: the JS
number would go negative if decrements were not clamped. -/
structure Activity where
  requestCount : Nat
  lastRequest : Int
  hourlyRequests : Nat
  dailyCost : ℚ
  exportCount : Nat
  failedAuthAttempts : Nat
  lastFailedAuth : Int
  concurrentSessions : Int
  lastActivity : Int
deriving DecidableEq

/-- The initial entry created on first observed activity
(anomalyDetection.ts lines 44–55). -/
def initialActivity (now : Int) : Activity :=
  ⟨0, 0, 0, 0, 0, 0, 0, 0, now⟩

/-- Severity of a security event. -/
inductive Severity where
  | low | medium | high
deriving DecidableEq

/-- The security-event kinds emitted by `checkAnomalies` (a closed set of
string tags in the source). -/
inductive SecurityEventKind where
  | high_request_rate | high_export_rate | high_daily_cost
  | multiple_auth_failures | multiple_concurrent_sessions
deriving DecidableEq

/-- A `logSecurityEvent` emission with its observed metric and threshold. -/
structure SecurityAlert where
  kind : SecurityEventKind
  severity : Severity
  observed : ℚ
  threshold : ℚ
deriving DecidableEq

/-- `checkAnomalies(userId, activity)` (anomalyDetection.ts lines 102–176):
each counter is compared to its threshold with strict `>`; breaches emit,
in source order, request-rate (high), export-rate (medium), daily-cost
(high), auth-failure (high) and concurrent-session (medium) events. -/
def checkAnomalies (th : Thresholds) (a : Activity) : List SecurityAlert :=
  (if a.hourlyRequests > th.requestsPerHour then
     [⟨.high_request_rate, .high, a.hourlyRequests, th.requestsPerHour⟩] else []) ++
  (if a.exportCount > th.exportsPerHour then
     [⟨.high_export_rate, .medium, a.exportCount, th.exportsPerHour⟩] else []) ++
  (if a.dailyCost > th.costPerDay then
     [⟨.high_daily_cost, .high, a.dailyCost, th.costPerDay⟩] else []) ++
  (if a.failedAuthAttempts > th.failedAuthAttempts then
     [⟨.multiple_auth_failures, .high, a.failedAuthAttempts, th.failedAuthAttempts⟩] else []) ++
  (if a.concurrentSessions > th.concurrentSessions then
     [⟨.multiple_concurrent_sessions, .medium, a.concurrentSessions, th.concurrentSessions⟩] else [])

/-- `trackUserActivity(userId, activityType, cost)` (anomalyDetection.ts
lines 38–97) for one user: fetch or lazily create the entry, reset the
hourly counter after more than an hour since `lastRequest` and the daily
cost after more than a day since `lastActivity`, apply the event (a
`session_end` clamps `concurrentSessions` at zero via `Math.max`; a cost is
added only when truthy), stamp `lastActivity`, store, and run
`checkAnomalies` on the updated entry. -/
def trackUserActivity (th : Thresholds) (stored : Option Activity)
    (activityType : ActivityType) (cost : Option ℚ) (now : Int) :
    Activity × List SecurityAlert :=
  let a0 := match stored with
    | some a => a
    | Option.none => initialActivity now
  let a1 := if now - a0.lastRequest > 3600000 then { a0 with hourlyRequests := 0 } else a0
  let a2 := if now - a1.lastActivity > 86400000 then { a1 with dailyCost := 0 } else a1
  let a3 := match activityType with
    | .request =>
      let a := { a2 with requestCount := a2.requestCount + 1,
                         lastRequest := now,
                         hourlyRequests := a2.hourlyRequests + 1 }
      match cost with
      | some c => if c = 0 then a else { a with dailyCost := a.dailyCost + c }
      | Option.none => a
    | .exportActivity => { a2 with exportCount := a2.exportCount + 1 }
    | .auth_failure => { a2 with failedAuthAttempts := a2.failedAuthAttempts + 1,
                                 lastFailedAuth := now }
    | .session_start => { a2 with concurrentSessions := a2.concurrentSessions + 1 }
    | .session_end => { a2 with concurrentSessions := max 0 (a2.concurrentSessions - 1) }
  let a4 := { a3 with lastActivity := now }
  (a4, checkAnomalies th a4)

/-- One tracked event: activity type, optional cost, and the current time. -/
def TrackEvent := ActivityType × Option ℚ × Int

/-- Run `trackUserActivity` for one user over a sequence of events,
threading the stored entry; returns each call's updated entry and emitted
alerts. -/
def trackList (th : Thresholds) (stored : Option Activity) :
    List TrackEvent → List (Activity × List SecurityAlert)
  | [] => []
  | (ty, cost, now) :: evs =>
    let r := trackUserActivity th stored ty cost now
    r :: trackList th (some r.1) evs

/-! ## Stateful `/g`-flag regex registers of `DANGEROUS_PATTERNS`

The `DANGEROUS_PATTERNS` array (validation.ts lines 24–45) holds
module-level `RegExp` objects with the `g` flag, so `pattern.test(content)`
is stateful: on a match it advances the pattern's `lastIndex` to the match
end, and on a miss it resets `lastIndex` to 0; the register persists across
`validateAndSanitizeText` invocations.  (The sanitizer's replace patterns
are regex literals evaluated anew on each call and are stateless.) -/

/-- A dangerous pattern: a `<tag[^>]*>.*?<\/tag>` pair or a plain substring
signature, both case-insensitive. -/
inductive DangerousPattern where
  | tagPair (tag : List Char)
  | substring (pat : List Char)
deriving DecidableEq

/-- The `DANGEROUS_PATTERNS` array in source order: the nine tag pairs,
then the eleven substring signatures. -/
def DANGEROUS_PATTERNS : List DangerousPattern :=
  dangerousTagNames.map (fun t => DangerousPattern.tagPair t.toList) ++
  dangerousSubstrings.map (fun p => DangerousPattern.substring p.toList)

/-- Index of the first position where `close` matches (case-insensitively)
with no `.`-forbidden line terminator before it — the `.*?</tag>` tail. -/
def closeIdxNoNL (close : List Char) : List Char → Option Nat
  | [] => if startsWithLower close [] then some 0 else none
  | c :: cs =>
    if startsWithLower close (c :: cs) then some 0
    else if isLineTerm c then none
    else (closeIdxNoNL close cs).map (· + 1)

/-- Length of the match of a dangerous pattern starting exactly at the
head of `s`, if any. -/
def patMatchEndAt (p : DangerousPattern) (s : List Char) : Option Nat :=
  match p with
  | .substring pat => if startsWithLower pat s then some pat.length else none
  | .tagPair tag =>
    match openTagLen tag s with
    | some olen =>
      match closeIdxNoNL ('<' :: '/' :: (tag ++ ['>'])) (List.drop olen s) with
      | some j => some (olen + j + (tag.length + 3))
      | none => none
    | none => none

/-- Absolute end index of the leftmost match of `p` in the suffix `s`
whose head sits at absolute index `pos`. -/
def firstMatchEndAux (p : DangerousPattern) : List Char → Nat → Option Nat
  | [], pos =>
    match patMatchEndAt p [] with
    | some e => some (pos + e)
    | none => none
  | c :: cs, pos =>
    match patMatchEndAt p (c :: cs) with
    | some e => some (pos + e)
    | none => firstMatchEndAux p cs (pos + 1)

/-- `RegExp.prototype.test` for a `/g` pattern: search from `lastIndex`
(failing when it exceeds the length); a match returns true and moves
`lastIndex` to the match end, a miss returns false and resets `lastIndex`
to 0.  Returns (verdict, new lastIndex). -/
def regexTestG (p : DangerousPattern) (lastIndex : Nat) (s : List Char) : Bool × Nat :=
  if lastIndex > s.length then (false, 0)
  else
    match firstMatchEndAux p (List.drop lastIndex s) lastIndex with
    | some e => (true, e)
    | none => (false, 0)

/-- The `for (const pattern of DANGEROUS_PATTERNS)` loop with the patterns'
`lastIndex` registers threaded through: each pattern is tested in order with
its own register; the first match stops the loop (the source throws there),
leaving the registers of the untested later patterns untouched.  Returns
(any pattern matched, updated registers). -/
def dangerousScanStateful : List DangerousPattern → List Nat → List Char → Bool × List Nat
  | [], registers, _ => (false, registers)
  | p :: ps, li :: lis, s =>
    let r := regexTestG p li s
    if r.1 then (true, r.2 :: lis)
    else
      let rest := dangerousScanStateful ps lis s
      (rest.1, r.2 :: rest.2)
  | _ :: _, [], _ => (false, [])

/-- The register state of a fresh process: every `lastIndex` is 0. -/
def initialRegexState : List Nat := List.replicate DANGEROUS_PATTERNS.length 0

/-- `validateAndSanitizeText` with the module-level regex registers made
explicit: the length check precedes and does not touch them; the dangerous
scan threads them; the sanitize chain is stateless.  Returns the result and
the updated registers. -/
def validateAndSanitizeTextStateful (registers : List Nat) (content : List Char)
    (maxLength : Nat) : Except String (List Char) × List Nat :=
  if content.length > maxLength then
    (.error ("Content exceeds maximum length of " ++ toString maxLength ++ " characters"),
     registers)
  else if (dangerousScanStateful DANGEROUS_PATTERNS registers content).1 then
    (.error "Content contains potentially dangerous patterns",
     (dangerousScanStateful DANGEROUS_PATTERNS registers content).2)
  else
    (.ok (jsTrim (sanitizeText content)),
     (dangerousScanStateful DANGEROUS_PATTERNS registers content).2)

/-! ## Theorems -/

/-- C1: the claimed three-step credential cascade (board default → the
subject's own active credential → process-wide fallback) is not what the
code does.  Evaluated at the failing input — no board default key, no
environment fallback, while the subject owns an active openai credential —
`llm.ts` resolution fails with the "No openai API key found" error even
though step (2) of the cascade (which `llmSecure.ts` implements via
`listApiKeys`) would have produced the subject's own key. -/
theorem llm_cascade_skips_user_key :
    findApiKeyLlm id (fun _ => Option.none) Option.none Option.none Option.none "openai"
      = .error "No openai API key found. Please add one in settings." ∧
    findApiKeyLlmSecure id
      [⟨"user1", "openai", "personal", "cret", "sk-user-secret", "active"⟩] "openai"
      = .ok "sk-user-secret" := by
  exact ⟨rfl, rfl⟩

/-- C3 counterexample: `validateMaxTokens` — the ceiling that
`llmSecure.ts` passes straight through to the provider — rejects a request
of 100001 with an error instead of clamping it, and passes 100000 through
unchanged, far above the 600-token hard ceiling that `llm.ts` enforces. -/
theorem maxTokens_clamp_counterexample :
    validateMaxTokens (some 100001) = .error "Max tokens must be between 1 and 100,000" ∧
    validateMaxTokens (some 100000) = .ok 100000 ∧
    ¬ ((100000 : ℤ) ≤ 600) := by
  refine ⟨rfl, ?_, by decide⟩
  norm_num [validateMaxTokens, round_eq]

/-- C3 amended: `llm.ts` clamps `Math.min(maxTokens || 400, 600)` to its
600-token hard ceiling for every caller value, while `llmSecure.ts` uses
`validateMaxTokens`, which never returns more than 100000 but rejects
requests above 100000 with an error instead of clamping them. -/
theorem maxTokens_bounds :
    (∀ maxTokens, llmMaxTokens maxTokens ≤ 600) ∧
    (∀ q r, validateMaxTokens (some q) = .ok r → r ≤ 100000) ∧
    (∀ q, q > 100000 →
      validateMaxTokens (some q) = .error "Max tokens must be between 1 and 100,000") := by
  refine ⟨fun maxTokens => min_le_right _ _, fun q r h => ?_, fun q hq => ?_⟩
  · simp only [validateMaxTokens] at h
    split at h
    · exact absurd h (by simp)
    · rename_i hrange
      push_neg at hrange
      have hq : q ≤ 100000 := hrange.2
      have hfloor : round q ≤ round (100000 : ℚ) := by
        rw [round_eq, round_eq]
        exact Int.floor_le_floor (by linarith)
      have h100 : round (100000 : ℚ) = 100000 := by norm_num [round_eq]
      have : r = round q := by simpa using h.symm
      omega
  · simp only [validateMaxTokens]
    rw [if_pos (Or.inr hq)]

/-- C3 witness: the amended bound applied at a caller value of 100000. -/
theorem maxTokens_bounds_witness :
    validateMaxTokens (some 100000) = .ok 100000 ∧ (100000 : ℤ) ≤ 100000 := by
  have hok : validateMaxTokens (some 100000) = .ok 100000 := by
    norm_num [validateMaxTokens, round_eq]
  exact ⟨hok, maxTokens_bounds.2.1 100000 100000 hok⟩

/-- Helper: in the per-invocation model (all regex registers at 0), content
matching a dangerous-pattern signature is rejected by
`validateAndSanitizeText`: no sanitized value is returned for it. -/
theorem dangerous_content_rejected (content : List Char) (maxLength : Nat)
    (h : containsDangerousPattern content = true) :
    ∀ out, validateAndSanitizeText content maxLength ≠ .ok out := by
  intro out
  unfold validateAndSanitizeText
  split
  · simp
  · simp [h]

/-- Helper: `closeIdxNoNL` finds an index exactly when `closeNoNL` says a
close tag is reachable. -/
theorem closeIdxNoNL_isSome (close : List Char) :
    ∀ v, (closeIdxNoNL close v).isSome = closeNoNL close v := by
  intro v
  induction v with
  | nil =>
    simp only [closeIdxNoNL, closeNoNL]
    split <;> simp_all
  | cons c cs ih =>
    simp only [closeIdxNoNL, closeNoNL]
    split_ifs with h1 h2 <;> simp_all

/-- Helper: the leftmost-match search for a substring pattern succeeds
exactly when the case-insensitive infix test does. -/
theorem firstMatchEndAux_substring (pat : List Char) :
    ∀ (s : List Char) (pos : Nat),
      (firstMatchEndAux (.substring pat) s pos).isSome = containsCharsCI pat s := by
  intro s
  induction s with
  | nil =>
    intro pos
    simp only [firstMatchEndAux, patMatchEndAt, containsCharsCI]
    split <;> simp_all
  | cons c cs ih =>
    intro pos
    by_cases hs : startsWithLower pat (c :: cs) = true
    · simp [firstMatchEndAux, patMatchEndAt, containsCharsCI, hs]
    · simp only [Bool.not_eq_true] at hs
      simp [firstMatchEndAux, patMatchEndAt, containsCharsCI, hs, ih]

/-- Helper: the leftmost-match search for a tag-pair pattern succeeds
exactly when the `pattern.test`-style matcher does. -/
theorem firstMatchEndAux_tagPair (tag : List Char) :
    ∀ (s : List Char) (pos : Nat),
      (firstMatchEndAux (.tagPair tag) s pos).isSome = matchesTagPairTest tag s := by
  intro s
  induction s with
  | nil =>
    intro pos
    simp [firstMatchEndAux, patMatchEndAt, openTagLen, startsWithLower, matchesTagPairTest]
  | cons c cs ih =>
    intro pos
    cases ho : openTagLen tag (c :: cs) with
    | none => simp [firstMatchEndAux, patMatchEndAt, ho, matchesTagPairTest, ih]
    | some olen =>
      cases hc : closeIdxNoNL ('<' :: '/' :: (tag ++ ['>'])) (List.drop olen (c :: cs)) with
      | none =>
        have hcn : closeNoNL ('<' :: '/' :: (tag ++ ['>'])) (List.drop olen (c :: cs))
            = false := by
          rw [← closeIdxNoNL_isSome, hc]
          rfl
        simp [firstMatchEndAux, patMatchEndAt, ho, hc, matchesTagPairTest, ih, hcn]
      | some j =>
        have hcn : closeNoNL ('<' :: '/' :: (tag ++ ['>'])) (List.drop olen (c :: cs))
            = true := by
          rw [← closeIdxNoNL_isSome, hc]
          rfl
        simp [firstMatchEndAux, patMatchEndAt, ho, hc, matchesTagPairTest, hcn]

/-- Helper: a `/g` test at `lastIndex` 0 agrees with the per-invocation
pattern matchers. -/
theorem regexTestG_zero (p : DangerousPattern) (s : List Char) :
    (regexTestG p 0 s).1 = (match p with
      | .tagPair tag => matchesTagPairTest tag s
      | .substring pat => containsCharsCI pat s) := by
  have hbase : (regexTestG p 0 s).1 = (firstMatchEndAux p s 0).isSome := by
    simp only [regexTestG]
    rw [if_neg (by omega), List.drop_zero]
    cases firstMatchEndAux p s 0 <;> rfl
  rw [hbase]
  cases p with
  | tagPair tag => exact firstMatchEndAux_tagPair tag s 0
  | substring pat => exact firstMatchEndAux_substring pat s 0

/-- Helper: the stateful scan from all-zero registers answers like a fold
of fresh `/g` tests. -/
theorem dangerousScanStateful_zero (s : List Char) :
    ∀ ps : List DangerousPattern,
      (dangerousScanStateful ps (List.replicate ps.length 0) s).1
        = ps.any (fun p => (regexTestG p 0 s).1) := by
  intro ps
  induction ps with
  | nil => rfl
  | cons p ps ih =>
    simp only [List.length_cons, List.replicate_succ, dangerousScanStateful, List.any_cons]
    by_cases h : (regexTestG p 0 s).1 = true
    · simp [h]
    · simp only [Bool.not_eq_true] at h
      simp [h, ih]

/-- Helper: `any` over a mapped list tests the composite predicate. -/
theorem list_any_map {α β : Type} (f : α → β) (p : β → Bool) :
    ∀ l : List α, (l.map f).any p = l.any (fun a => p (f a)) := by
  intro l
  induction l with
  | nil => rfl
  | cons x xs ih => simp [List.any_cons, ih]

/-- Helper: from the initial (fresh-process) registers, the stateful
dangerous scan agrees with `containsDangerousPattern`. -/
theorem dangerousScanStateful_initial (s : List Char) :
    (dangerousScanStateful DANGEROUS_PATTERNS initialRegexState s).1
      = containsDangerousPattern s := by
  rw [show initialRegexState = List.replicate DANGEROUS_PATTERNS.length 0 from rfl,
    dangerousScanStateful_zero]
  simp only [DANGEROUS_PATTERNS, containsDangerousPattern, List.any_append, regexTestG_zero]
  rw [list_any_map, list_any_map]

/-- Helper: a first (fresh-register) call of the stateful validator returns
the same verdict as the per-invocation `validateAndSanitizeText`. -/
theorem validateStateful_fresh (content : List Char) (maxLength : Nat) :
    (validateAndSanitizeTextStateful initialRegexState content maxLength).1
      = validateAndSanitizeText content maxLength := by
  simp only [validateAndSanitizeTextStateful, validateAndSanitizeText,
    dangerousScanStateful_initial]
  split_ifs <;> rfl

/-- C4 counterexample: the module-level `/g` registers persist across
calls, so the claim fails in a reachable state: after
`<script>alert(1)</script>` is rejected (advancing the script pattern's
`lastIndex` to the match end), validating the equally dangerous
`<script>alert(2)</script>` does not throw — the script regex resumes past
the payload — and the content is returned with the script silently
stripped (`.ok []`), exactly what the claim says never happens. -/
theorem dangerous_pattern_register_counterexample :
    (validateAndSanitizeTextStateful initialRegexState
        "<script>alert(1)</script>".toList MAX_LENGTHS_NODE_CONTENT).1
      = .error "Content contains potentially dangerous patterns" ∧
    (validateAndSanitizeTextStateful
        (validateAndSanitizeTextStateful initialRegexState
          "<script>alert(1)</script>".toList MAX_LENGTHS_NODE_CONTENT).2
        "<script>alert(2)</script>".toList MAX_LENGTHS_NODE_CONTENT).1
      = .ok [] ∧
    containsDangerousPattern "<script>alert(2)</script>".toList = true := by
  exact ⟨rfl, rfl, by decide⟩

/-- C4 amended: from the initial register state — every `DANGEROUS_PATTERNS`
`lastIndex` at 0, as in a fresh process's first validation or whenever no
earlier call has left a register advanced — any content matching a
dangerous-pattern signature is rejected with an error regardless of
surrounding text, and no sanitized value is returned; because the
module-level `/g` regexes retain `lastIndex` across invocations, a call
made after a prior rejection can instead miss the same dangerous pattern
and return the content with the payload silently stripped. -/
theorem dangerous_content_rejected_fresh_state (content : List Char) (maxLength : Nat)
    (h : containsDangerousPattern content = true) :
    ∀ out registers,
      validateAndSanitizeTextStateful initialRegexState content maxLength
        ≠ (.ok out, registers) := by
  intro out registers hcontra
  have h1 : (validateAndSanitizeTextStateful initialRegexState content maxLength).1
      = .ok out := by
    rw [hcontra]
  rw [validateStateful_fresh] at h1
  exact dangerous_content_rejected content maxLength h out h1

/-- C4 witness: a concrete script-tag payload surrounded by valid text is
rejected from the initial register state. -/
theorem dangerous_content_rejected_fresh_state_witness :
    validateAndSanitizeTextStateful initialRegexState
        "hello <script>alert(1)</script> world".toList MAX_LENGTHS_NODE_CONTENT
      ≠ (.ok [], initialRegexState) :=
  dangerous_content_rejected_fresh_state _ _ (by decide) [] initialRegexState

/-- C5: content longer than the configured maximum is rejected by
`validateAndSanitizeText` with an error; no value — in particular no
truncated prefix — is ever returned. -/
theorem overlong_content_rejected (content : List Char) (maxLength : Nat)
    (h : content.length > maxLength) :
    ∀ out, validateAndSanitizeText content maxLength ≠ .ok out := by
  intro out
  unfold validateAndSanitizeText
  rw [if_pos h]
  simp

/-- C5 witness: a four-character string over a three-character ceiling is
not returned truncated to its three-character prefix. -/
theorem overlong_content_rejected_witness :
    validateAndSanitizeText "abcd".toList 3 ≠ .ok "abc".toList :=
  overlong_content_rejected _ _ (by decide) _

/-- C2 counterexample: an invocation of the `llmSecure.ts` `complete`
orchestrator inserts zero UsageEvents — not exactly one — whether the
provider call succeeds or fails (the handler contains no `recordUsage`
call).  Evaluated at a concrete fully-successful invocation and at the same
invocation with a failing provider call. -/
theorem llmSecure_complete_records_no_usage :
    (llmSecureComplete id (some "user1") true (some ⟨"user1", false⟩)
        [⟨"user1", "openai", "personal", "cret", "sk-user-secret", "active"⟩]
        [⟨Role.user, "hello".toList⟩] Option.none Option.none Option.none Option.none
        (.success "hi" 5 7)) = ([], .ok ("hi", 5, 7)) ∧
    (llmSecureComplete id (some "user1") true (some ⟨"user1", false⟩)
        [⟨"user1", "openai", "personal", "cret", "sk-user-secret", "active"⟩]
        [⟨Role.user, "hello".toList⟩] Option.none Option.none Option.none Option.none
        (.failure "boom")).1 = [] ∧
    (llmSecureComplete id (some "user1") true (some ⟨"user1", false⟩)
        [⟨"user1", "openai", "personal", "cret", "sk-user-secret", "active"⟩]
        [⟨Role.user, "hello".toList⟩] Option.none Option.none Option.none Option.none
        (.success "hi" 5 7)).1.length ≠ 1 := by
  exact ⟨rfl, rfl, by decide⟩

/-- C2 amended: per invocation of the `llm.ts` orchestrators with a
resolved API key: `completeStream` inserts exactly one UsageEvent (its node
updates are individually guarded); `complete` inserts exactly one whenever
no response node is attached or the post-success node update succeeds — in
particular on every provider failure the single event has zero tokens and
`error` status and the error is re-raised — but when the unguarded
post-success `updateResponseNode` throws, a second zero-token `error`-status
event is inserted after the `success` event and that error is re-raised.
(The `llmSecure.ts` orchestrators record no UsageEvent at all.) -/
theorem llm_usage_event_accounting
    (decrypt : String → String) (getApiKey : String → Option ApiKeyDoc)
    (boardDefaultApiKeyId envConvexOpenaiKey envOpenaiKey : Option String)
    (userId boardId : String) (providerArg modelArg : Option String)
    (responseNodeId : Option String) (updateOutcome : Except String Unit)
    (k : String)
    (hkey : findApiKeyLlm decrypt getApiKey boardDefaultApiKeyId envConvexOpenaiKey
      envOpenaiKey (jsStrOr providerArg "openai") = .ok k)
    (outcome : ProviderOutcome) (soutcome : StreamOutcome) :
    (llmCompleteStream decrypt getApiKey boardDefaultApiKeyId envConvexOpenaiKey envOpenaiKey
        userId boardId providerArg modelArg responseNodeId updateOutcome soutcome).1.length
      = 1 ∧
    (responseNodeId = Option.none ∨ updateOutcome = .ok () →
      (llmComplete decrypt getApiKey boardDefaultApiKeyId envConvexOpenaiKey envOpenaiKey
          userId boardId providerArg modelArg responseNodeId updateOutcome outcome).1.length
        = 1) ∧
    (∀ msg, jsStrOr providerArg "openai" = "openai" → outcome = .failure msg →
      llmComplete decrypt getApiKey boardDefaultApiKeyId envConvexOpenaiKey envOpenaiKey
          userId boardId providerArg modelArg responseNodeId updateOutcome outcome =
        ([⟨userId, boardId, jsStrOr providerArg "openai", jsStrOr modelArg "gpt-5-mini",
           0, 0, 0, "error"⟩], .error msg)) ∧
    (∀ text inT outT n msg, jsStrOr providerArg "openai" = "openai" →
      outcome = .success text inT outT → responseNodeId = some n →
      updateOutcome = .error msg →
      llmComplete decrypt getApiKey boardDefaultApiKeyId envConvexOpenaiKey envOpenaiKey
          userId boardId providerArg modelArg responseNodeId updateOutcome outcome =
        ([⟨userId, boardId, jsStrOr providerArg "openai", jsStrOr modelArg "gpt-5-mini",
           inT, outT, calculateCost (jsStrOr providerArg "openai")
             (jsStrOr modelArg "gpt-5-mini") inT outT, "success"⟩,
          ⟨userId, boardId, jsStrOr providerArg "openai", jsStrOr modelArg "gpt-5-mini",
           0, 0, 0, "error"⟩], .error msg)) ∧
    (∀ chunks msg, jsStrOr providerArg "openai" = "openai" → soutcome = .failure chunks msg →
      llmCompleteStream decrypt getApiKey boardDefaultApiKeyId envConvexOpenaiKey envOpenaiKey
          userId boardId providerArg modelArg responseNodeId updateOutcome soutcome =
        ([⟨userId, boardId, jsStrOr providerArg "openai", jsStrOr modelArg "gpt-5-mini",
           0, 0, 0, "error"⟩], .error msg)) := by
  refine ⟨?_, ?_, ?_, ?_, ?_⟩
  · simp only [llmCompleteStream, hkey]
    split
    · cases soutcome <;> simp
    · simp
  · intro hupd
    simp only [llmComplete, hkey]
    split
    · cases outcome with
      | success text inT outT =>
        rcases hupd with hupd | hupd
        · subst hupd
          simp
        · subst hupd
          cases responseNodeId <;> simp
      | failure msg => simp
    · simp
  · intro msg hprov hmsg
    subst hmsg
    simp only [llmComplete, hkey]
    rw [if_pos hprov]
  · intro text inT outT n msg hprov hout hnode hupd
    subst hout
    subst hnode
    subst hupd
    simp only [llmComplete, hkey]
    rw [if_pos hprov]
  · intro chunks msg hprov hmsg
    subst hmsg
    simp only [llmCompleteStream, hkey]
    rw [if_pos hprov]

/-- C2 witness: the amended statement applied to a concrete invocation
with an environment-resolved key, a failing provider call, and a
successful call whose post-success node update throws (showing the second
insert). -/
theorem llm_usage_event_accounting_witness :
    (llmComplete id (fun _ => Option.none) Option.none (some "E") Option.none
        "u" "b" Option.none Option.none Option.none (.ok ())
        (.failure "boom")).1.length = 1 ∧
    (llmCompleteStream id (fun _ => Option.none) Option.none (some "E") Option.none
        "u" "b" Option.none Option.none Option.none (.ok ())
        (.failure [] "boom")).1.length = 1 ∧
    (llmComplete id (fun _ => Option.none) Option.none (some "E") Option.none
        "u" "b" Option.none Option.none (some "n1") (.error "Node not found")
        (.success "hi" 5 7)).1.length = 2 := by
  have h := llm_usage_event_accounting id (fun _ => Option.none)
    Option.none (some "E") Option.none "u" "b" Option.none Option.none
    Option.none (.ok ()) "E" rfl (.failure "boom") (.failure [] "boom")
  have h2 := llm_usage_event_accounting id (fun _ => Option.none)
    Option.none (some "E") Option.none "u" "b" Option.none Option.none
    (some "n1") (.error "Node not found") "E" rfl (.success "hi" 5 7) (.failure [] "boom")
  refine ⟨h.2.1 (Or.inl rfl), h.1, ?_⟩
  rw [h2.2.2.2.1 "hi" 5 7 "n1" "Node not found" rfl rfl rfl rfl]
  rfl

/-- C6: for an authenticated subject who does not own a public board and
for whom no applicable (this-board, non-expired) share grant exists,
`checkBoardAccess` grants exactly `read`: true at level read, false at
levels write and admin. -/
theorem public_board_grants_exactly_read
    (boards : String → Option BoardDoc) (tokens : List SharingToken)
    (boardId userId : String) (now : Int) (b : BoardDoc)
    (hb : boards boardId = some b)
    (howner : b.ownerUserId ≠ userId)
    (hpub : b.isPublic = true)
    (hnog : tokens.filter (fun t =>
        decide (t.boardId = boardId) && decide (t.expiresAt ≥ now)) = []) :
    checkBoardAccess boards tokens boardId userId AccessLevel.read now = true ∧
    checkBoardAccess boards tokens boardId userId AccessLevel.write now = false ∧
    checkBoardAccess boards tokens boardId userId AccessLevel.admin now = false := by
  refine ⟨?_, ?_, ?_⟩ <;>
    simp [checkBoardAccess, hb, howner, hpub, hnog]

/-- C6 witness: a concrete public board, non-owner subject and empty grant
table. -/
theorem public_board_grants_exactly_read_witness :
    checkBoardAccess (fun _ => some ⟨"owner", true⟩) [] "b1" "alice" AccessLevel.read 0 = true ∧
    checkBoardAccess (fun _ => some ⟨"owner", true⟩) [] "b1" "alice" AccessLevel.write 0 = false ∧
    checkBoardAccess (fun _ => some ⟨"owner", true⟩) [] "b1" "alice" AccessLevel.admin 0 = false :=
  public_board_grants_exactly_read _ _ "b1" "alice" 0 ⟨"owner", true⟩
    rfl (by decide) rfl rfl

/-- C7: when every share grant for a non-public board belonging to someone
else has expired, access resolution returns the same verdict as if those
grants did not exist at all, and that verdict is no access, at every
required level. -/
theorem expired_grant_treated_as_absent
    (boards : String → Option BoardDoc) (tokens : List SharingToken)
    (boardId userId : String) (now : Int) (b : BoardDoc)
    (hb : boards boardId = some b)
    (howner : b.ownerUserId ≠ userId)
    (hpub : b.isPublic = false)
    (hexp : ∀ t ∈ tokens, t.boardId = boardId → t.expiresAt < now) :
    ∀ level,
      checkBoardAccess boards tokens boardId userId level now =
        checkBoardAccess boards (tokens.filter (fun t => decide (t.boardId ≠ boardId)))
          boardId userId level now ∧
      checkBoardAccess boards tokens boardId userId level now = false := by
  have hfil : tokens.filter (fun t =>
      decide (t.boardId = boardId) && decide (t.expiresAt ≥ now)) = [] := by
    rw [List.filter_eq_nil_iff]
    intro t ht
    simp only [Bool.and_eq_true, decide_eq_true_eq, not_and]
    intro hbid
    exact not_le.mpr (hexp t ht hbid)
  have hfil2 : (tokens.filter (fun t => decide (t.boardId ≠ boardId))).filter (fun t =>
      decide (t.boardId = boardId) && decide (t.expiresAt ≥ now)) = [] := by
    rw [List.filter_eq_nil_iff]
    intro t ht
    have hne : t.boardId ≠ boardId := by
      have := List.of_mem_filter ht
      simpa using this
    simp [hne]
  intro level
  have hmain : checkBoardAccess boards tokens boardId userId level now = false := by
    simp only [checkBoardAccess, hb]
    rw [if_neg howner, if_neg (by simp [hpub]), hfil]
    rfl
  have hremoved : checkBoardAccess boards
      (tokens.filter (fun t => decide (t.boardId ≠ boardId))) boardId userId level now
        = false := by
    simp only [checkBoardAccess, hb]
    rw [if_neg howner, if_neg (by simp [hpub]), hfil2]
    rfl
  exact ⟨hmain.trans hremoved.symm, hmain⟩

/-- C7 witness: a single expired grant on a private board yields no access
for a non-owner, matching the empty grant table. -/
theorem expired_grant_treated_as_absent_witness :
    checkBoardAccess (fun _ => some ⟨"owner", false⟩) [⟨"b1", "tok", ShareAccess.comment, 50⟩]
        "b1" "alice" AccessLevel.write 100 =
      checkBoardAccess (fun _ => some ⟨"owner", false⟩)
        (([⟨"b1", "tok", ShareAccess.comment, 50⟩] : List SharingToken).filter
          (fun t => decide (t.boardId ≠ "b1"))) "b1" "alice" AccessLevel.write 100 ∧
    checkBoardAccess (fun _ => some ⟨"owner", false⟩) [⟨"b1", "tok", ShareAccess.comment, 50⟩]
        "b1" "alice" AccessLevel.write 100 = false :=
  expired_grant_treated_as_absent _ _ "b1" "alice" 100 ⟨"owner", false⟩
    rfl (by decide) rfl (by decide) AccessLevel.write

/-- Helper for C8: starting inside an active window at count `c`, a run of
calls all at times within the window allows exactly
`min (number of calls) (maxRequests - c)` of them. -/
theorem rlRun_count_inWindow (maxRequests windowMs : Nat) :
    ∀ (ts : List Nat) (c R : Nat), (∀ t ∈ ts, t ≤ R) →
      (rlRun (some ⟨c, R⟩) maxRequests windowMs ts).count true
        = min ts.length (maxRequests - c) := by
  intro ts
  induction ts with
  | nil => intro c R _; simp [rlRun]
  | cons t ts ih =>
    intro c R h
    have ht : t ≤ R := h t (List.mem_cons_self t ts)
    have hrest : ∀ u ∈ ts, u ≤ R := fun u hu => h u (List.mem_cons_of_mem t hu)
    by_cases hc : c ≥ maxRequests
    · have hstep : checkRateLimit (some ⟨c, R⟩) t maxRequests windowMs = (false, ⟨c, R⟩) := by
        simp only [checkRateLimit]
        rw [if_neg (by omega), if_pos hc]
      simp only [rlRun, hstep, List.count_cons]
      rw [ih c R hrest]
      simp only [List.length_cons]
      simp
      omega
    · have hstep : checkRateLimit (some ⟨c, R⟩) t maxRequests windowMs
          = (true, ⟨c + 1, R⟩) := by
        simp only [checkRateLimit]
        rw [if_neg (by omega), if_neg hc]
      simp only [rlRun, hstep, List.count_cons]
      rw [ih (c + 1) R hrest]
      simp only [List.length_cons]
      simp
      omega

/-- C8: `checkRateLimit` fixed-window semantics — a first call for a key
(or the first after the window expiry has passed) starts a window at count
1 and is allowed; a call inside the active window is allowed exactly when
the count is below `maxRequests`, incrementing it when allowed; hence over
a first call and any further calls inside its window, exactly
`min (number of calls) maxRequests` calls are allowed, i.e. at most
`maxRequests` return true and every further call returns false. -/
theorem checkRateLimit_window_semantics (maxRequests windowMs : Nat)
    (hmax : 1 ≤ maxRequests) :
    (∀ now, checkRateLimit Option.none now maxRequests windowMs
      = (true, ⟨1, now + windowMs⟩)) ∧
    (∀ e now, now > e.resetTime →
      checkRateLimit (some e) now maxRequests windowMs = (true, ⟨1, now + windowMs⟩)) ∧
    (∀ e now, now ≤ e.resetTime →
      (checkRateLimit (some e) now maxRequests windowMs).1
        = decide (e.count < maxRequests)) ∧
    (∀ e now, now ≤ e.resetTime → e.count < maxRequests →
      (checkRateLimit (some e) now maxRequests windowMs).2 = ⟨e.count + 1, e.resetTime⟩) ∧
    (∀ t0 ts, (∀ t ∈ ts, t ≤ t0 + windowMs) →
      (rlRun Option.none maxRequests windowMs (t0 :: ts)).count true
        = min (ts.length + 1) maxRequests) := by
  refine ⟨fun now => rfl, fun e now h => ?_, fun e now h => ?_, fun e now h hcount => ?_,
    fun t0 ts h => ?_⟩
  · simp only [checkRateLimit]
    rw [if_pos h]
  · simp only [checkRateLimit]
    rw [if_neg (by omega)]
    by_cases hc : e.count ≥ maxRequests
    · rw [if_pos hc]
      simp
      omega
    · rw [if_neg hc]
      simp
      omega
  · simp only [checkRateLimit]
    rw [if_neg (by omega), if_neg (by omega)]
  · have hfirst : checkRateLimit Option.none t0 maxRequests windowMs
        = (true, ⟨1, t0 + windowMs⟩) := rfl
    simp only [rlRun, hfirst, List.count_cons]
    rw [rlRun_count_inWindow maxRequests windowMs ts 1 (t0 + windowMs) h]
    simp
    omega

/-- C8 witness: with a limit of 2 per window, three calls inside one window
allow exactly the first two. -/
theorem checkRateLimit_window_semantics_witness :
    (rlRun Option.none 2 10 [0, 1, 2]).count true = 2 := by
  have h := (checkRateLimit_window_semantics 2 10 (by decide)).2.2.2.2 0 [1, 2] (by decide)
  exact h.trans (by norm_num)

set_option maxRecDepth 40000

/-- C9: every `trackUserActivity` update runs `checkAnomalies` on the
updated window; each counter is compared to its threshold with strict
greater-than, emitting the request-rate, daily-cost and failed-auth alerts
at severity high and the export-rate and concurrent-session alerts at
severity medium exactly when the counter exceeds its threshold (so the
alert fires again on every further update while the condition persists);
in particular the 101st request in one hourly window emits a high-severity
request-rate alert with observed value 101 against threshold 100, the
first hundred emitting none. -/
theorem trackUserActivity_alert_severities :
    (∀ th stored ty cost now,
      (trackUserActivity th stored ty cost now).2
        = checkAnomalies th (trackUserActivity th stored ty cost now).1) ∧
    (∀ th a,
      (⟨.high_request_rate, .high, a.hourlyRequests, th.requestsPerHour⟩ : SecurityAlert)
          ∈ checkAnomalies th a ↔ a.hourlyRequests > th.requestsPerHour) ∧
    (∀ th a,
      (⟨.high_export_rate, .medium, a.exportCount, th.exportsPerHour⟩ : SecurityAlert)
          ∈ checkAnomalies th a ↔ a.exportCount > th.exportsPerHour) ∧
    (∀ th a,
      (⟨.high_daily_cost, .high, a.dailyCost, th.costPerDay⟩ : SecurityAlert)
          ∈ checkAnomalies th a ↔ a.dailyCost > th.costPerDay) ∧
    (∀ th a,
      (⟨.multiple_auth_failures, .high, a.failedAuthAttempts, th.failedAuthAttempts⟩ :
          SecurityAlert) ∈ checkAnomalies th a ↔ a.failedAuthAttempts > th.failedAuthAttempts) ∧
    (∀ th a,
      (⟨.multiple_concurrent_sessions, .medium, a.concurrentSessions, th.concurrentSessions⟩ :
          SecurityAlert) ∈ checkAnomalies th a ↔ a.concurrentSessions > th.concurrentSessions) ∧
    ((trackList defaultThresholds Option.none
        (List.replicate 101 (ActivityType.request, (Option.none : Option ℚ), (5000000000 : Int)))).map
          (fun r => r.2)
      = List.replicate 100 [] ++ [[⟨.high_request_rate, .high, 101, 100⟩]]) := by
  refine ⟨fun th stored ty cost now => rfl, ?_, ?_, ?_, ?_, ?_, by decide⟩ <;>
  · intro th a
    simp only [checkAnomalies, List.mem_append]
    split_ifs <;> simp_all

/-- Helper for C10: one `trackUserActivity` step keeps the stored
`concurrentSessions` counter non-negative. -/
theorem trackUserActivity_sessions_step (th : Thresholds) (stored : Option Activity)
    (ty : ActivityType) (cost : Option ℚ) (now : Int)
    (h : ∀ a, stored = some a → 0 ≤ a.concurrentSessions) :
    0 ≤ (trackUserActivity th stored ty cost now).1.concurrentSessions := by
  rcases stored with _ | a
  · cases ty <;> cases cost <;>
      simp only [trackUserActivity, initialActivity] <;>
      split_ifs <;> simp
  · have ha := h a rfl
    cases ty <;> cases cost <;>
      simp only [trackUserActivity] <;>
      split_ifs <;> simp <;> omega

/-- C10: over any sequence of tracked events for one subject, every stored
activity window has a non-negative `concurrentSessions` counter — a
`session_end` without a matching `session_start` clamps at zero
(`Math.max(0, n - 1)`) instead of going negative. -/
theorem concurrentSessions_nonneg (th : Thresholds) (evs : List TrackEvent)
    (p : Activity × List SecurityAlert) (hp : p ∈ trackList th Option.none evs) :
    0 ≤ p.1.concurrentSessions := by
  suffices haux : ∀ (evs : List TrackEvent) (stored : Option Activity),
      (∀ a, stored = some a → 0 ≤ a.concurrentSessions) →
      ∀ q ∈ trackList th stored evs, 0 ≤ q.1.concurrentSessions by
    exact haux evs Option.none (by intro a ha; cases ha) p hp
  intro evs
  induction evs with
  | nil => intro stored _ q hq; simp [trackList] at hq
  | cons ev evs ih =>
    intro stored hinv q hq
    obtain ⟨ty, cost, now⟩ := ev
    simp only [trackList, List.mem_cons] at hq
    rcases hq with hq | hq
    · subst hq
      exact trackUserActivity_sessions_step th stored ty cost now hinv
    · refine ih (some (trackUserActivity th stored ty cost now).1) ?_ q hq
      intro a ha
      injection ha with ha
      subst ha
      exact trackUserActivity_sessions_step th stored ty cost now hinv

/-- C10 witness: a `session_end` observed first thing leaves the counter at
zero. -/
theorem concurrentSessions_nonneg_witness :
    0 ≤ ((trackUserActivity defaultThresholds Option.none ActivityType.session_end
      Option.none 0).1).concurrentSessions :=
  concurrentSessions_nonneg defaultThresholds
    [(ActivityType.session_end, Option.none, 0)] _ (by simp [trackList])

end Nodea
